import Mathlib

/-!
Shallow embedding of the API-key authentication core of the `cruder`
repository: the credential hasher (`crypto/sha256` + lowercase hex),
Go's `strings.TrimSpace`, the TTL-bounded validation cache
(`getCached` / `setCache`), the validator (`Validate`), the service
constructor (`NewAPIKeyService`) and the request-gate middleware
(`APIKeyAuth`).  Time instants and durations are Go `time.Time` /
`time.Duration` values modelled as integers (nanoseconds); Go's
`t.After(u)` is the strict comparison `t > u`.  Each `Validate` call
samples the clock once (`now`); within a call Go may sample it up to
three times, but all claims below concern per-call instants only.
-/

set_option maxRecDepth 100000

namespace Cruder

/-! ### 32-bit arithmetic helpers (Go `uint32`, values kept below 2^32) -/

def M32 : Nat := 4294967296

def add32 (a b : Nat) : Nat := (a + b) % M32

def rotr32 (n x : Nat) : Nat := ((x >>> n) ||| (x <<< (32 - n))) % M32

/-! ### SHA-256 (Go `crypto/sha256`, FIPS 180-4) over byte lists -/

def bigSigma0 (x : Nat) : Nat := rotr32 2 x ^^^ rotr32 13 x ^^^ rotr32 22 x

def bigSigma1 (x : Nat) : Nat := rotr32 6 x ^^^ rotr32 11 x ^^^ rotr32 25 x

def smallSigma0 (x : Nat) : Nat := rotr32 7 x ^^^ rotr32 18 x ^^^ (x >>> 3)

def smallSigma1 (x : Nat) : Nat := rotr32 17 x ^^^ rotr32 19 x ^^^ (x >>> 10)

def chFn (x y z : Nat) : Nat := (x &&& y) ^^^ ((x ^^^ 4294967295) &&& z)

def majFn (x y z : Nat) : Nat := (x &&& y) ^^^ (x &&& z) ^^^ (y &&& z)

def sha256K : List Nat :=
  [1116352408, 1899447441, 3049323471, 3921009573,
   961987163, 1508970993, 2453635748, 2870763221,
   3624381080, 310598401, 607225278, 1426881987,
   1925078388, 2162078206, 2614888103, 3248222580,
   3835390401, 4022224774, 264347078, 604807628,
   770255983, 1249150122, 1555081692, 1996064986,
   2554220882, 2821834349, 2952996808, 3210313671,
   3336571891, 3584528711, 113926993, 338241895,
   666307205, 773529912, 1294757372, 1396182291,
   1695183700, 1986661051, 2177026350, 2456956037,
   2730485921, 2820302411, 3259730800, 3345764771,
   3516065817, 3600352804, 4094571909, 275423344,
   430227734, 506948616, 659060556, 883997877,
   958139571, 1322822218, 1537002063, 1747873779,
   1955562222, 2024104815, 2227730452, 2361852424,
   2428436474, 2756734187, 3204031479, 3329325298]

def beWord (b0 b1 b2 b3 : Nat) : Nat :=
  ((b0 % 256) <<< 24) + ((b1 % 256) <<< 16) + ((b2 % 256) <<< 8) + (b3 % 256)

def toWords : List Nat → List Nat
  | b0 :: b1 :: b2 :: b3 :: rest => beWord b0 b1 b2 b3 :: toWords rest
  | _ => []

def schedule (w16 : Array Nat) : Array Nat :=
  (List.range 48).foldl
    (fun w _ =>
      let s1 := smallSigma1 (w.getD (w.size - 2) 0)
      let s0 := smallSigma0 (w.getD (w.size - 15) 0)
      w.push (add32 (add32 s1 (w.getD (w.size - 7) 0)) (add32 s0 (w.getD (w.size - 16) 0))))
    w16

/-- The eight 32-bit words of SHA-256 chaining state (Go `digest.h`). -/
structure Sha256State where
  h0 : Nat
  h1 : Nat
  h2 : Nat
  h3 : Nat
  h4 : Nat
  h5 : Nat
  h6 : Nat
  h7 : Nat
deriving DecidableEq

def sha256Init : Sha256State :=
  ⟨1779033703, 3144134277, 1013904242, 2773480762,
   1359893119, 2600822924, 528734635, 1541459225⟩

def sha256Round (st : Nat × Nat × Nat × Nat × Nat × Nat × Nat × Nat) (kw : Nat × Nat) :
    Nat × Nat × Nat × Nat × Nat × Nat × Nat × Nat :=
  match st, kw with
  | (a, b, c, d, e, f, g, h), (k, wt) =>
    let t1 := add32 (add32 (add32 h (bigSigma1 e)) (add32 (chFn e f g) k)) wt
    let t2 := add32 (bigSigma0 a) (majFn a b c)
    (add32 t1 t2, a, b, c, add32 d t1, e, f, g)

def compressBlock (st : Sha256State) (block : List Nat) : Sha256State :=
  let w := schedule (toWords block).toArray
  match (List.zip sha256K w.toList).foldl sha256Round
      (st.h0, st.h1, st.h2, st.h3, st.h4, st.h5, st.h6, st.h7) with
  | (a, b, c, d, e, f, g, h) =>
    ⟨add32 st.h0 a, add32 st.h1 b, add32 st.h2 c, add32 st.h3 d,
     add32 st.h4 e, add32 st.h5 f, add32 st.h6 g, add32 st.h7 h⟩

def beBytes8 (n : Nat) : List Nat :=
  [n >>> 56 % 256, n >>> 48 % 256, n >>> 40 % 256, n >>> 32 % 256,
   n >>> 24 % 256, n >>> 16 % 256, n >>> 8 % 256, n % 256]

/-- FIPS 180-4 padding: `0x80`, zeros, then the 64-bit big-endian bit length. -/
def padMessage (msg : List Nat) : List Nat :=
  msg ++ [128] ++ List.replicate ((64 - ((msg.length + 9) % 64)) % 64) 0 ++
    beBytes8 (msg.length * 8)

def chunksAux : Nat → List Nat → List (List Nat)
  | 0, _ => []
  | _, [] => []
  | fuel + 1, b :: rest => (b :: rest).take 64 :: chunksAux fuel ((b :: rest).drop 64)

/-- Split a padded message into 64-byte blocks (fuel-driven structural
recursion; `l.length` steps always suffice since each step consumes 64 bytes). -/
def chunks64 (l : List Nat) : List (List Nat) := chunksAux l.length l

def sha256 (msg : List Nat) : Sha256State :=
  (chunks64 (padMessage msg)).foldl compressBlock sha256Init

def wordBEBytes (w : Nat) : List Nat :=
  [w >>> 24 % 256, w >>> 16 % 256, w >>> 8 % 256, w % 256]

def digestWords (st : Sha256State) : List Nat :=
  [st.h0, st.h1, st.h2, st.h3, st.h4, st.h5, st.h6, st.h7]

def digestBytes (st : Sha256State) : List Nat :=
  (digestWords st |>.map wordBEBytes).flatten

/-! ### Lowercase hex encoding (Go `encoding/hex.EncodeToString`) -/

def hexDigitChar (n : Nat) : Char :=
  if n < 10 then Char.ofNat (48 + n) else Char.ofNat (87 + n)

def bytesToHex (bs : List Nat) : String :=
  String.mk ((bs.map (fun b => [hexDigitChar (b / 16), hexDigitChar (b % 16)])).flatten)

/-! ### UTF-8 bytes of a string (Go `[]byte(value)`) -/

def utf8Encode (c : Char) : List Nat :=
  let n := c.toNat
  if n < 128 then [n]
  else if n < 2048 then [192 + n / 64, 128 + n % 64]
  else if n < 65536 then [224 + n / 4096, 128 + n / 64 % 64, 128 + n % 64]
  else [240 + n / 262144, 128 + n / 4096 % 64, 128 + n / 64 % 64, 128 + n % 64]

def strBytes (s : String) : List Nat := (s.data.map utf8Encode).flatten

/-- `hashAPIKey` from `internal/service/api_keys.go`:
`hex.EncodeToString(sha256.Sum256([]byte(value)))`. -/
def hashAPIKey (value : String) : String :=
  bytesToHex (digestBytes (sha256 (strBytes value)))

example : hashAPIKey "" =
    "e3b0c44298fc1c149afbf4c8996fb92427ae41e4649b934ca495991b7852b855" := by decide

example : hashAPIKey "abc" =
    "ba7816bf8f01cfea414140de5dae2223b00361a396177a9cb410ff61f20015ad" := by decide

/-! ### Go `strings.TrimSpace` (Unicode White_Space) -/

def goIsSpace (c : Char) : Bool :=
  let n := c.toNat
  n == 9 || n == 10 || n == 11 || n == 12 || n == 13 || n == 32 || n == 133 || n == 160 ||
    n == 5760 || (8192 ≤ n && n ≤ 8202) || n == 8232 || n == 8233 || n == 8239 ||
    n == 8287 || n == 12288

def trimSpace (s : String) : String :=
  String.mk (((s.data.dropWhile goIsSpace).reverse.dropWhile goIsSpace).reverse)

/-! ### Data model (`internal/model`) -/

/-- `model.APIKey`; Go `time.Time` fields become integer instants. -/
structure APIKey where
  ID : Int
  KeyHash : String
  ClientName : String
  CreatedAt : Int
  UpdatedAt : Int
deriving DecidableEq

/-- `cacheEntry` from `internal/service/api_keys.go`. -/
structure cacheEntry where
  key : APIKey
  expires : Int
deriving DecidableEq

/-- The service's `cache map[string]cacheEntry`, as an association list with
Go-map semantics (`mapLookup` / `mapInsert` overwrite / `mapDelete`). -/
abbrev Cache := List (String × cacheEntry)

def mapLookup : Cache → String → Option cacheEntry
  | [], _ => none
  | (k, v) :: rest, h => if k = h then some v else mapLookup rest h

def mapDelete : Cache → String → Cache
  | [], _ => []
  | (k, v) :: rest, h => if k = h then mapDelete rest h else (k, v) :: mapDelete rest h

def mapInsert (c : Cache) (h : String) (v : cacheEntry) : Cache :=
  (h, v) :: mapDelete c h

/-! ### Cache operations (`getCached` / `setCache`) -/

/-- `getCached`: a stored entry is a hit unless `time.Now().After(entry.expires)`,
i.e. unless `now > expires` (strict).  Pure read — no cache output. -/
def getCached (cache : Cache) (now : Int) (hash : String) : Option cacheEntry :=
  match mapLookup cache hash with
  | none => none
  | some entry => if now > entry.expires then none else some entry

/-- `setCache`: deletes the key when the entry is already expired
(`time.Now().After(entry.expires)`), otherwise stores it, overwriting. -/
def setCache (cache : Cache) (now : Int) (hash : String) (entry : cacheEntry) : Cache :=
  if now > entry.expires then mapDelete cache hash else mapInsert cache hash entry

/-! ### Repository gateway and service state -/

/-- Outcome of `repo.GetByHash`: Go returns `(key, err)` where a nil key with
nil error means "absent" and a non-nil error is a storage failure. -/
inductive RepoResult where
  | found (key : APIKey)
  | absent
  | failure (err : String)
deriving DecidableEq

def timeMinute : Int := 60000000000

/-- State of `apiKeyService` (the repository and logger are passed separately;
the mutex guards concurrency only and has no sequential content). -/
structure APIKeyServiceState where
  cache : Cache
  ttl : Int
deriving DecidableEq

/-- `NewAPIKeyService`: non-positive TTL is replaced by `5 * time.Minute`. -/
def NewAPIKeyService (ttl : Int) : APIKeyServiceState :=
  { cache := [], ttl := if ttl ≤ 0 then 5 * timeMinute else ttl }

/-! ### The validator (`Validate`) -/

inductive ValidateError where
  | ErrAPIKeyMissing
  | ErrAPIKeyInvalid
  | repoError (err : String)
deriving DecidableEq

/-- The `(*model.APIKey, error)` pair returned by `Validate`. -/
inductive ValidateResult where
  | ok (key : APIKey)
  | error (e : ValidateError)
deriving DecidableEq

/-- Result of one `Validate` call: the returned value, the cache after the
call, and instrumentation recording the keys sent to the repository
(`repoQueries`) and the keys looked up in the cache (`cacheReads`). -/
structure ValidateOutput where
  result : ValidateResult
  cache : Cache
  repoQueries : List String
  cacheReads : List String
deriving DecidableEq

/-- `Validate` from `internal/service/api_keys.go`, with the repository
modelled as a function from lookup hash to `RepoResult` and the clock
sampled once per call (`now`). -/
def Validate (repo : String → RepoResult) (s : APIKeyServiceState) (now : Int)
    (apiKey : String) : ValidateOutput :=
  let trimmed := trimSpace apiKey
  if trimmed = "" then
    { result := .error .ErrAPIKeyMissing, cache := s.cache, repoQueries := [], cacheReads := [] }
  else
    let hash := hashAPIKey trimmed
    match getCached s.cache now hash with
    | some entry =>
      { result := .ok entry.key, cache := s.cache, repoQueries := [], cacheReads := [hash] }
    | none =>
      match repo hash with
      | .failure err =>
        { result := .error (.repoError err), cache := s.cache,
          repoQueries := [hash], cacheReads := [hash] }
      | .absent =>
        { result := .error .ErrAPIKeyInvalid, cache := s.cache,
          repoQueries := [hash], cacheReads := [hash] }
      | .found key =>
        { result := .ok key,
          cache := setCache s.cache now hash { key := key, expires := now + s.ttl },
          repoQueries := [hash], cacheReads := [hash] }

/-- A sequence of `Validate` calls at the given instants, threading the cache. -/
def ValidateSeq (repo : String → RepoResult) (s : APIKeyServiceState) (k : String) :
    List Int → List ValidateOutput
  | [] => []
  | t :: ts =>
    let out := Validate repo s t k
    out :: ValidateSeq repo { cache := out.cache, ttl := s.ttl } k ts

/-! ### Request-gate middleware (`internal/middleware`, `APIKeyAuth`) -/

def HeaderAPIKey : String := "X-API-Key"

def ContextAPIClientKey : String := "api.client"

/-- Gin's `c.GetHeader`: an absent header reads as the empty string. -/
def GetHeader (header : Option String) : String := header.getD ""

/-- JSON body `gin.H` with a single `error` field, as written by
`AbortWithStatusJSON`. -/
structure ErrorBody where
  error : String
deriving DecidableEq

/-- What the middleware does with the request: abort with a status and JSON
error body before the downstream handler, or run the downstream handler
(`c.Next()`) with the listed key-value pairs added to the request context. -/
inductive GateOutcome where
  | abortWithStatusJSON (status : Nat) (body : ErrorBody)
  | nextWith (contextValues : List (String × APIKey))
deriving DecidableEq

/-- `APIKeyAuth` from `internal/middleware`: reads `X-API-Key`, calls
`Validate`, and maps the outcome to a response. -/
def APIKeyAuth (repo : String → RepoResult) (s : APIKeyServiceState) (now : Int)
    (header : Option String) : GateOutcome :=
  match (Validate repo s now (GetHeader header)).result with
  | .error .ErrAPIKeyMissing =>
    .abortWithStatusJSON 401 { error := "missing api key" }
  | .error .ErrAPIKeyInvalid =>
    .abortWithStatusJSON 403 { error := "invalid api key" }
  | .error (.repoError _) =>
    .abortWithStatusJSON 500 { error := "internal server error" }
  | .ok client =>
    .nextWith [(ContextAPIClientKey, client)]

/-! ### Association-map lemmas -/

theorem mapLookup_delete_self (c : Cache) (h : String) :
    mapLookup (mapDelete c h) h = none := by
  induction c with
  | nil => rfl
  | cons kv rest ih =>
    obtain ⟨k, v⟩ := kv
    by_cases hk : k = h <;> simp [mapDelete, mapLookup, hk, ih]

theorem mapLookup_delete_ne (c : Cache) (h h2 : String) (hne : h2 ≠ h) :
    mapLookup (mapDelete c h) h2 = mapLookup c h2 := by
  induction c with
  | nil => rfl
  | cons kv rest ih =>
    obtain ⟨k, v⟩ := kv
    by_cases hk : k = h <;> by_cases hk2 : k = h2 <;>
      simp_all [mapDelete, mapLookup]

theorem mapLookup_insert_self (c : Cache) (h : String) (v : cacheEntry) :
    mapLookup (mapInsert c h v) h = some v := by
  simp [mapInsert, mapLookup]

theorem mapLookup_insert_ne (c : Cache) (h h2 : String) (v : cacheEntry) (hne : h2 ≠ h) :
    mapLookup (mapInsert c h v) h2 = mapLookup c h2 := by
  simp [mapInsert, mapLookup, Ne.symm hne, mapLookup_delete_ne c h h2 hne]

/-- A credential that misses the cache at `t1` still misses it at any later
`t2` if the cache is unchanged (a missing key stays missing and an expired
entry stays expired). -/
theorem getCached_none_mono (c : Cache) (h : String) (t1 t2 : Int) (hle : t1 ≤ t2)
    (hmiss : getCached c t1 h = none) : getCached c t2 h = none := by
  unfold getCached at hmiss ⊢
  cases heq : mapLookup c h with
  | none => simp
  | some entry =>
    rw [heq] at hmiss
    by_cases hexp : t1 > entry.expires
    · have h2 : t2 > entry.expires := by omega
      simp [h2]
    · simp [hexp] at hmiss

/-! ### Path lemmas for `Validate` -/

/-- Cache-hit path: `Validate` returns the cached record, touches no storage
and leaves the cache as it was. -/
theorem Validate_hit (repo : String → RepoResult) (s : APIKeyServiceState)
    (now : Int) (k : String) (entry : cacheEntry) (hk : trimSpace k ≠ "")
    (hhit : getCached s.cache now (hashAPIKey (trimSpace k)) = some entry) :
    Validate repo s now k =
      { result := .ok entry.key, cache := s.cache,
        repoQueries := [], cacheReads := [hashAPIKey (trimSpace k)] } := by
  simp [Validate, hk, hhit]

/-- Found path: cache miss, repository returns a record, cache is written. -/
theorem Validate_found_case (repo : String → RepoResult) (s : APIKeyServiceState)
    (now : Int) (k : String) (r : APIKey) (hk : trimSpace k ≠ "")
    (hmiss : getCached s.cache now (hashAPIKey (trimSpace k)) = none)
    (hrepo : repo (hashAPIKey (trimSpace k)) = .found r) :
    Validate repo s now k =
      { result := .ok r,
        cache := setCache s.cache now (hashAPIKey (trimSpace k))
          { key := r, expires := now + s.ttl },
        repoQueries := [hashAPIKey (trimSpace k)],
        cacheReads := [hashAPIKey (trimSpace k)] } := by
  simp [Validate, hk, hmiss, hrepo]

/-- Absent path: cache miss, repository reports no record. -/
theorem Validate_absent_case (repo : String → RepoResult) (s : APIKeyServiceState)
    (now : Int) (k : String) (hk : trimSpace k ≠ "")
    (hmiss : getCached s.cache now (hashAPIKey (trimSpace k)) = none)
    (hrepo : repo (hashAPIKey (trimSpace k)) = .absent) :
    Validate repo s now k =
      { result := .error .ErrAPIKeyInvalid, cache := s.cache,
        repoQueries := [hashAPIKey (trimSpace k)],
        cacheReads := [hashAPIKey (trimSpace k)] } := by
  simp [Validate, hk, hmiss, hrepo]

/-- Failure path: cache miss, repository query fails. -/
theorem Validate_failure_case (repo : String → RepoResult) (s : APIKeyServiceState)
    (now : Int) (k : String) (e : String) (hk : trimSpace k ≠ "")
    (hmiss : getCached s.cache now (hashAPIKey (trimSpace k)) = none)
    (hrepo : repo (hashAPIKey (trimSpace k)) = .failure e) :
    Validate repo s now k =
      { result := .error (.repoError e), cache := s.cache,
        repoQueries := [hashAPIKey (trimSpace k)],
        cacheReads := [hashAPIKey (trimSpace k)] } := by
  simp [Validate, hk, hmiss, hrepo]

/-! ### Claim theorems -/

/-- A concrete credential record used in concrete counterexamples and
witnesses. -/
def testKey : APIKey :=
  { ID := 1, KeyHash := "h", ClientName := "Test Client", CreatedAt := 0, UpdatedAt := 0 }

/-- C4: for every input credential that is empty or whitespace-only,
`Validate` returns `ErrAPIKeyMissing`, performs no repository call, and
leaves the cache unchanged. -/
theorem Validate_missing_key (repo : String → RepoResult) (s : APIKeyServiceState)
    (now : Int) (k : String) (hk : trimSpace k = "") :
    Validate repo s now k =
      { result := .error .ErrAPIKeyMissing, cache := s.cache,
        repoQueries := [], cacheReads := [] } := by
  simp [Validate, hk]

theorem Validate_missing_key_witness :
    Validate (fun _ => RepoResult.absent) (NewAPIKeyService 0) 0 " \t " =
      { result := .error .ErrAPIKeyMissing, cache := [],
        repoQueries := [], cacheReads := [] } :=
  Validate_missing_key _ _ _ _ (by decide)

/-- C7: `NewAPIKeyService` uses the configured TTL when it is positive and
exactly `5 * time.Minute` when it is zero or negative. -/
theorem NewAPIKeyService_ttl_default (ttl : Int) :
    (0 < ttl → NewAPIKeyService ttl = { cache := [], ttl := ttl }) ∧
    (ttl ≤ 0 → NewAPIKeyService ttl = { cache := [], ttl := 5 * timeMinute }) := by
  constructor
  · intro h
    simp [NewAPIKeyService, show ¬ ttl ≤ 0 from by omega]
  · intro h
    simp [NewAPIKeyService, h]

theorem NewAPIKeyService_ttl_default_witness :
    NewAPIKeyService 7 = { cache := [], ttl := 7 } ∧
    NewAPIKeyService (-3) = { cache := [], ttl := 5 * timeMinute } :=
  ⟨(NewAPIKeyService_ttl_default 7).1 (by decide),
   (NewAPIKeyService_ttl_default (-3)).2 (by decide)⟩

/-- C1: for a credential the store resolves to a record, a first `Validate`
call that misses the cache performs one storage lookup, populates the cache,
and a second call within the TTL returns the same record with zero storage
lookups — one repository query in total. -/
theorem Validate_second_call_cache_hit (repo : String → RepoResult)
    (s : APIKeyServiceState) (t1 t2 : Int) (k : String) (r : APIKey)
    (hk : trimSpace k ≠ "")
    (hrepo : repo (hashAPIKey (trimSpace k)) = .found r)
    (hmiss : getCached s.cache t1 (hashAPIKey (trimSpace k)) = none)
    (h12 : t1 ≤ t2) (hwin : t2 ≤ t1 + s.ttl) :
    (Validate repo s t1 k).result = .ok r ∧
    (Validate repo s t1 k).repoQueries = [hashAPIKey (trimSpace k)] ∧
    (Validate repo { cache := (Validate repo s t1 k).cache, ttl := s.ttl } t2 k).result =
      .ok r ∧
    (Validate repo { cache := (Validate repo s t1 k).cache, ttl := s.ttl } t2 k).repoQueries =
      [] := by
  have hv1 := Validate_found_case repo s t1 k r hk hmiss hrepo
  have hset : setCache s.cache t1 (hashAPIKey (trimSpace k))
      { key := r, expires := t1 + s.ttl } =
      mapInsert s.cache (hashAPIKey (trimSpace k)) { key := r, expires := t1 + s.ttl } := by
    unfold setCache
    rw [if_neg (show ¬ t1 > t1 + s.ttl by omega)]
  have hcache : (Validate repo s t1 k).cache =
      mapInsert s.cache (hashAPIKey (trimSpace k)) { key := r, expires := t1 + s.ttl } := by
    rw [hv1, hset]
  have hhit2 : getCached (Validate repo s t1 k).cache t2 (hashAPIKey (trimSpace k)) =
      some { key := r, expires := t1 + s.ttl } := by
    rw [hcache]
    unfold getCached
    rw [mapLookup_insert_self]
    exact if_neg (show ¬ t2 > t1 + s.ttl by omega)
  have hv2 := Validate_hit repo { cache := (Validate repo s t1 k).cache, ttl := s.ttl }
      t2 k { key := r, expires := t1 + s.ttl } hk hhit2
  refine ⟨?_, ?_, ?_, ?_⟩
  · rw [hv1]
  · rw [hv1]
  · rw [hv2]
  · rw [hv2]

theorem Validate_second_call_cache_hit_witness :
    (Validate (fun _ => RepoResult.found testKey) (NewAPIKeyService 60) 0 "abc").result =
      .ok testKey ∧
    (Validate (fun _ => RepoResult.found testKey) (NewAPIKeyService 60) 0 "abc").repoQueries =
      [hashAPIKey (trimSpace "abc")] ∧
    (Validate (fun _ => RepoResult.found testKey)
      { cache := (Validate (fun _ => RepoResult.found testKey)
          (NewAPIKeyService 60) 0 "abc").cache,
        ttl := (NewAPIKeyService 60).ttl } 50 "abc").result = .ok testKey ∧
    (Validate (fun _ => RepoResult.found testKey)
      { cache := (Validate (fun _ => RepoResult.found testKey)
          (NewAPIKeyService 60) 0 "abc").cache,
        ttl := (NewAPIKeyService 60).ttl } 50 "abc").repoQueries = [] :=
  Validate_second_call_cache_hit _ _ 0 50 "abc" testKey (by decide) rfl rfl
    (by decide) (by decide)

/-- C2: for a credential the store reports absent, every `Validate` call in a
sequence performs its own fresh storage lookup (n calls, n queries), returns
`ErrAPIKeyInvalid`, and leaves the cache unchanged — negative results are
never written to the cache.  (Stated for caches holding no entry for the
hash: the states reachable when the store never contained the credential.) -/
theorem Validate_absent_not_cached (repo : String → RepoResult) (s : APIKeyServiceState)
    (k : String) (times : List Int)
    (hk : trimSpace k ≠ "")
    (hrepo : repo (hashAPIKey (trimSpace k)) = .absent)
    (hnone : mapLookup s.cache (hashAPIKey (trimSpace k)) = none) :
    ValidateSeq repo s k times = times.map (fun _ =>
      { result := .error .ErrAPIKeyInvalid, cache := s.cache,
        repoQueries := [hashAPIKey (trimSpace k)],
        cacheReads := [hashAPIKey (trimSpace k)] }) := by
  induction times with
  | nil => rfl
  | cons t ts ih =>
    have hmiss : getCached s.cache t (hashAPIKey (trimSpace k)) = none := by
      simp [getCached, hnone]
    have hv := Validate_absent_case repo s t k hk hmiss hrepo
    simp [ValidateSeq, hv, ih]

theorem Validate_absent_not_cached_witness :
    ValidateSeq (fun _ => RepoResult.absent) (NewAPIKeyService 60) "abc"
      [0, 5, 10] = [0, 5, 10].map (fun _ =>
      { result := .error .ErrAPIKeyInvalid, cache := (NewAPIKeyService 60).cache,
        repoQueries := [hashAPIKey (trimSpace "abc")],
        cacheReads := [hashAPIKey (trimSpace "abc")] }) :=
  Validate_absent_not_cached _ _ "abc" [0, 5, 10] (by decide) rfl rfl

/-- C5: on a cache miss with a failing repository query, `Validate` returns
the repository error unchanged (wrapped as a downstream error distinct from
both sentinel errors), writes nothing to the cache, and a later call with
the same credential queries storage again. -/
theorem Validate_repo_error_passthrough (repo : String → RepoResult)
    (s : APIKeyServiceState) (t1 t2 : Int) (k : String) (e : String)
    (hk : trimSpace k ≠ "")
    (hrepo : repo (hashAPIKey (trimSpace k)) = .failure e)
    (hmiss : getCached s.cache t1 (hashAPIKey (trimSpace k)) = none)
    (h12 : t1 ≤ t2) :
    (Validate repo s t1 k).result = .error (.repoError e) ∧
    ValidateError.repoError e ≠ .ErrAPIKeyMissing ∧
    ValidateError.repoError e ≠ .ErrAPIKeyInvalid ∧
    (Validate repo s t1 k).cache = s.cache ∧
    (Validate repo { cache := (Validate repo s t1 k).cache, ttl := s.ttl } t2 k).repoQueries =
      [hashAPIKey (trimSpace k)] := by
  have hv1 := Validate_failure_case repo s t1 k e hk hmiss hrepo
  have hcache : (Validate repo s t1 k).cache = s.cache := by rw [hv1]
  have hmiss2 : getCached (Validate repo s t1 k).cache t2 (hashAPIKey (trimSpace k)) =
      none := by
    rw [hcache]
    exact getCached_none_mono s.cache _ t1 t2 h12 hmiss
  have hv2 := Validate_failure_case repo
      { cache := (Validate repo s t1 k).cache, ttl := s.ttl } t2 k e hk hmiss2 hrepo
  exact ⟨by rw [hv1], by simp, by simp, hcache, by rw [hv2]⟩

theorem Validate_repo_error_passthrough_witness :
    (Validate (fun _ => RepoResult.failure "boom") (NewAPIKeyService 60) 0 "abc").result =
      .error (.repoError "boom") ∧
    ValidateError.repoError "boom" ≠ .ErrAPIKeyMissing ∧
    ValidateError.repoError "boom" ≠ .ErrAPIKeyInvalid ∧
    (Validate (fun _ => RepoResult.failure "boom") (NewAPIKeyService 60) 0 "abc").cache =
      (NewAPIKeyService 60).cache ∧
    (Validate (fun _ => RepoResult.failure "boom")
      { cache := (Validate (fun _ => RepoResult.failure "boom")
          (NewAPIKeyService 60) 0 "abc").cache,
        ttl := (NewAPIKeyService 60).ttl } 1 "abc").repoQueries =
      [hashAPIKey (trimSpace "abc")] :=
  Validate_repo_error_passthrough _ _ 0 1 "abc" "boom" (by decide) rfl rfl (by decide)

/-- C3 counterexample: the claim says an entry whose expiry instant equals the
current time is never returned as a hit, but `getCached` uses Go's strict
`time.Now().After(entry.expires)`, so at `now = expires = 100` the entry IS
returned as a hit. -/
theorem getCached_expiry_boundary_cex :
    getCached [("h", { key := testKey, expires := 100 })] 100 "h" =
      some { key := testKey, expires := 100 } := by decide

/-- C3 (amended): `getCached` returns a hit exactly when an entry is stored
for the hash and the current time is at-or-before (`≤`) its expiry instant;
equivalently it misses when no entry exists or the expiry is strictly before
the current time. -/
theorem getCached_hit_iff (c : Cache) (now : Int) (h : String) (e : cacheEntry) :
    getCached c now h = some e ↔ mapLookup c h = some e ∧ now ≤ e.expires := by
  constructor
  · intro hhit
    cases heq : mapLookup c h with
    | none => simp [getCached, heq] at hhit
    | some entry =>
      by_cases hexp : now > entry.expires
      · simp [getCached, heq, hexp] at hhit
      · simp [getCached, heq, hexp] at hhit
        subst hhit
        exact ⟨rfl, by omega⟩
  · rintro ⟨hfound, hle⟩
    simp [getCached, hfound, show ¬ now > e.expires from by omega]

/-- C8: `setCache` stores the entry, overwriting any existing entry for the
hash, unless the entry's expiry has already elapsed at write time, in which
case it stores nothing and removes any existing entry; other keys are
untouched; and the entry `Validate` writes on the found path has expiry
`now + ttl`. -/
theorem setCache_write_semantics (c : Cache) (now : Int) (h : String) (e : cacheEntry) :
    (now > e.expires → setCache c now h e = mapDelete c h ∧
      mapLookup (setCache c now h e) h = none) ∧
    (now ≤ e.expires → mapLookup (setCache c now h e) h = some e) ∧
    (∀ h2, h2 ≠ h → mapLookup (setCache c now h e) h2 = mapLookup c h2) ∧
    (∀ (repo : String → RepoResult) (s : APIKeyServiceState) (k : String) (r : APIKey),
      trimSpace k ≠ "" →
      getCached s.cache now (hashAPIKey (trimSpace k)) = none →
      repo (hashAPIKey (trimSpace k)) = .found r →
      (Validate repo s now k).cache =
        setCache s.cache now (hashAPIKey (trimSpace k)) { key := r, expires := now + s.ttl }) := by
  refine ⟨?_, ?_, ?_, ?_⟩
  · intro hexp
    have hs : setCache c now h e = mapDelete c h := by
      unfold setCache
      rw [if_pos hexp]
    exact ⟨hs, by rw [hs]; exact mapLookup_delete_self c h⟩
  · intro hle
    have hs : setCache c now h e = mapInsert c h e := by
      unfold setCache
      rw [if_neg (by omega)]
    rw [hs]
    exact mapLookup_insert_self c h e
  · intro h2 hne
    unfold setCache
    by_cases hexp : now > e.expires
    · rw [if_pos hexp]
      exact mapLookup_delete_ne c h h2 hne
    · rw [if_neg hexp]
      exact mapLookup_insert_ne c h h2 e hne
  · intro repo s k r hk hmiss hrepo
    rw [Validate_found_case repo s now k r hk hmiss hrepo]

theorem setCache_write_semantics_witness :
    (setCache [] 5 "h" { key := testKey, expires := 4 } = mapDelete [] "h" ∧
      mapLookup (setCache [] 5 "h" { key := testKey, expires := 4 }) "h" = none) ∧
    mapLookup (setCache [] 3 "h" { key := testKey, expires := 4 }) "h" =
      some { key := testKey, expires := 4 } ∧
    mapLookup (setCache [] 3 "h" { key := testKey, expires := 4 }) "g" = mapLookup [] "g" ∧
    (Validate (fun _ => RepoResult.found testKey) (NewAPIKeyService 60) 3 "abc").cache =
      setCache (NewAPIKeyService 60).cache 3 (hashAPIKey (trimSpace "abc"))
        { key := testKey, expires := 3 + (NewAPIKeyService 60).ttl } :=
  ⟨(setCache_write_semantics [] 5 "h" { key := testKey, expires := 4 }).1 (by decide),
   (setCache_write_semantics [] 3 "h" { key := testKey, expires := 4 }).2.1 (by decide),
   (setCache_write_semantics [] 3 "h" { key := testKey, expires := 4 }).2.2.1 "g" (by decide),
   (setCache_write_semantics [] 3 "h" { key := testKey, expires := 4 }).2.2.2
     (fun _ => RepoResult.found testKey) (NewAPIKeyService 60) "abc" testKey
     (by decide) rfl rfl⟩

/-- C10: `getCached` never mutates the cache: an expired entry found on read
is reported as a miss but is not deleted — after a `Validate` call that read
it (and whose repository lookup found nothing, so no write happened) the
expired entry is still stored under its hash. -/
theorem getCached_read_frame (repo : String → RepoResult) (s : APIKeyServiceState)
    (now : Int) (k : String) (e : cacheEntry)
    (hk : trimSpace k ≠ "")
    (hfound : mapLookup s.cache (hashAPIKey (trimSpace k)) = some e)
    (hexp : now > e.expires)
    (habs : repo (hashAPIKey (trimSpace k)) = .absent) :
    getCached s.cache now (hashAPIKey (trimSpace k)) = none ∧
    (Validate repo s now k).cache = s.cache ∧
    mapLookup (Validate repo s now k).cache (hashAPIKey (trimSpace k)) = some e := by
  have hmiss : getCached s.cache now (hashAPIKey (trimSpace k)) = none := by
    simp [getCached, hfound, hexp]
  have hv := Validate_absent_case repo s now k hk hmiss habs
  exact ⟨hmiss, by rw [hv], by rw [hv]; exact hfound⟩

theorem getCached_read_frame_witness :
    getCached [(hashAPIKey (trimSpace "abc"), { key := testKey, expires := 10 })] 11
      (hashAPIKey (trimSpace "abc")) = none ∧
    (Validate (fun _ => RepoResult.absent)
      { cache := [(hashAPIKey (trimSpace "abc"), { key := testKey, expires := 10 })],
        ttl := 60 } 11 "abc").cache =
      [(hashAPIKey (trimSpace "abc"), { key := testKey, expires := 10 })] ∧
    mapLookup (Validate (fun _ => RepoResult.absent)
      { cache := [(hashAPIKey (trimSpace "abc"), { key := testKey, expires := 10 })],
        ttl := 60 } 11 "abc").cache (hashAPIKey (trimSpace "abc")) =
      some { key := testKey, expires := 10 } :=
  getCached_read_frame (fun _ => RepoResult.absent)
    { cache := [(hashAPIKey (trimSpace "abc"), { key := testKey, expires := 10 })],
      ttl := 60 } 11 "abc" { key := testKey, expires := 10 }
    (by decide) (by decide) (by decide) rfl

/-! ### Hash-output shape lemmas -/

/-- The sixteen digits Go's `encoding/hex` draws from (`hextable`). -/
def lowercaseHexDigits : List Char := "0123456789abcdef".data

theorem hexDigitChar_mem (n : Nat) (hn : n < 16) : hexDigitChar n ∈ lowercaseHexDigits := by
  interval_cases n <;> decide

theorem hexChars_length (bs : List Nat) :
    ((bs.map (fun b => [hexDigitChar (b / 16), hexDigitChar (b % 16)])).flatten).length =
      2 * bs.length := by
  induction bs with
  | nil => rfl
  | cons b rest ih =>
    simp only [List.map_cons, List.flatten_cons, List.length_append, List.length_cons,
      List.length_nil, List.length_singleton, ih]
    omega

theorem bytesToHex_length (bs : List Nat) : (bytesToHex bs).length = 2 * bs.length :=
  hexChars_length bs

theorem digestBytes_length (st : Sha256State) : (digestBytes st).length = 32 := rfl

theorem hashAPIKey_length (v : String) : (hashAPIKey v).length = 64 := by
  unfold hashAPIKey
  rw [bytesToHex_length, digestBytes_length]

theorem digestBytes_lt (st : Sha256State) : ∀ b ∈ digestBytes st, b < 256 := by
  intro b hb
  simp [digestBytes, digestWords, wordBEBytes] at hb
  omega

theorem hashAPIKey_chars (v : String) :
    ∀ c ∈ (hashAPIKey v).data, c ∈ lowercaseHexDigits := by
  intro c hc
  have hc2 : c ∈ ((digestBytes (sha256 (strBytes v))).map
      (fun b => [hexDigitChar (b / 16), hexDigitChar (b % 16)])).flatten := hc
  rw [List.mem_flatten] at hc2
  obtain ⟨l, hl, hcl⟩ := hc2
  rw [List.mem_map] at hl
  obtain ⟨b, hb, rfl⟩ := hl
  have hblt : b < 256 := digestBytes_lt _ b hb
  simp only [List.mem_cons, List.not_mem_nil, or_false] at hcl
  rcases hcl with rfl | rfl
  · exact hexDigitChar_mem _ (by omega)
  · exact hexDigitChar_mem _ (by omega)

/-- Cache keys other than the credential's hash are never touched by
`Validate`. -/
theorem Validate_cache_frame (repo : String → RepoResult) (s : APIKeyServiceState)
    (now : Int) (k : String) (hk : trimSpace k ≠ "") (h2 : String)
    (hne : h2 ≠ hashAPIKey (trimSpace k)) :
    mapLookup (Validate repo s now k).cache h2 = mapLookup s.cache h2 := by
  cases hc : getCached s.cache now (hashAPIKey (trimSpace k)) with
  | some entry => rw [Validate_hit repo s now k entry hk hc]
  | none =>
    cases hr : repo (hashAPIKey (trimSpace k)) with
    | failure e => rw [Validate_failure_case repo s now k e hk hc hr]
    | absent => rw [Validate_absent_case repo s now k hk hc hr]
    | found r =>
      rw [Validate_found_case repo s now k r hk hc hr]
      unfold setCache
      by_cases hexp : now > (now + s.ttl)
      · rw [if_pos hexp]
        exact mapLookup_delete_ne _ _ _ hne
      · rw [if_neg hexp]
        exact mapLookup_insert_ne _ _ _ _ hne

/-- C9: for a non-empty trimmed credential, every storage lookup key and
every cache read key used by `Validate` is `hashAPIKey` of the trimmed
credential, the only cache key whose binding can change is that same hash,
and the hash is the hex-encoded SHA-256 digest of the credential: a
64-character string all of whose characters are lowercase hex digits. -/
theorem Validate_keys_are_sha256_hex (repo : String → RepoResult)
    (s : APIKeyServiceState) (now : Int) (k : String) (hk : trimSpace k ≠ "") :
    (∀ q ∈ (Validate repo s now k).repoQueries, q = hashAPIKey (trimSpace k)) ∧
    (∀ q ∈ (Validate repo s now k).cacheReads, q = hashAPIKey (trimSpace k)) ∧
    (∀ h2, mapLookup (Validate repo s now k).cache h2 ≠ mapLookup s.cache h2 →
      h2 = hashAPIKey (trimSpace k)) ∧
    hashAPIKey (trimSpace k) = bytesToHex (digestBytes (sha256 (strBytes (trimSpace k)))) ∧
    (hashAPIKey (trimSpace k)).length = 64 ∧
    (∀ c ∈ (hashAPIKey (trimSpace k)).data, c ∈ lowercaseHexDigits) := by
  refine ⟨?_, ?_, ?_, rfl, hashAPIKey_length _, hashAPIKey_chars _⟩
  · intro q hq
    cases hc : getCached s.cache now (hashAPIKey (trimSpace k)) with
    | some entry =>
      rw [Validate_hit repo s now k entry hk hc] at hq
      simp at hq
    | none =>
      cases hr : repo (hashAPIKey (trimSpace k)) with
      | failure e =>
        rw [Validate_failure_case repo s now k e hk hc hr] at hq
        simpa using hq
      | absent =>
        rw [Validate_absent_case repo s now k hk hc hr] at hq
        simpa using hq
      | found r =>
        rw [Validate_found_case repo s now k r hk hc hr] at hq
        simpa using hq
  · intro q hq
    cases hc : getCached s.cache now (hashAPIKey (trimSpace k)) with
    | some entry =>
      rw [Validate_hit repo s now k entry hk hc] at hq
      simpa using hq
    | none =>
      cases hr : repo (hashAPIKey (trimSpace k)) with
      | failure e =>
        rw [Validate_failure_case repo s now k e hk hc hr] at hq
        simpa using hq
      | absent =>
        rw [Validate_absent_case repo s now k hk hc hr] at hq
        simpa using hq
      | found r =>
        rw [Validate_found_case repo s now k r hk hc hr] at hq
        simpa using hq
  · intro h2 hdiff
    by_contra hne
    exact hdiff (Validate_cache_frame repo s now k hk h2 hne)

theorem Validate_keys_are_sha256_hex_witness :
    (∀ q ∈ (Validate (fun _ => RepoResult.absent) (NewAPIKeyService 0) 0 "abc").repoQueries,
      q = hashAPIKey (trimSpace "abc")) ∧
    (∀ q ∈ (Validate (fun _ => RepoResult.absent) (NewAPIKeyService 0) 0 "abc").cacheReads,
      q = hashAPIKey (trimSpace "abc")) ∧
    (∀ h2, mapLookup (Validate (fun _ => RepoResult.absent)
        (NewAPIKeyService 0) 0 "abc").cache h2 ≠
        mapLookup (NewAPIKeyService 0).cache h2 → h2 = hashAPIKey (trimSpace "abc")) ∧
    hashAPIKey (trimSpace "abc") =
      bytesToHex (digestBytes (sha256 (strBytes (trimSpace "abc")))) ∧
    (hashAPIKey (trimSpace "abc")).length = 64 ∧
    (∀ c ∈ (hashAPIKey (trimSpace "abc")).data, c ∈ lowercaseHexDigits) :=
  Validate_keys_are_sha256_hex (fun _ => RepoResult.absent) (NewAPIKeyService 0) 0 "abc"
    (by decide)

/-- C6: the request gate maps each validator outcome to exactly one action:
missing credential aborts with 401 and body `error = "missing api key"`,
invalid credential aborts with 403 and body `error = "invalid api key"`, any
repository error aborts with 500 and body `error = "internal server error"`
(all before the downstream handler), and a valid record attaches the record
to the request context under the fixed key `"api.client"` and runs the
downstream handler. -/
theorem APIKeyAuth_outcome_mapping (repo : String → RepoResult)
    (s : APIKeyServiceState) (now : Int) (header : Option String) :
    ((Validate repo s now (GetHeader header)).result = .error .ErrAPIKeyMissing →
      APIKeyAuth repo s now header =
        .abortWithStatusJSON 401 { error := "missing api key" }) ∧
    ((Validate repo s now (GetHeader header)).result = .error .ErrAPIKeyInvalid →
      APIKeyAuth repo s now header =
        .abortWithStatusJSON 403 { error := "invalid api key" }) ∧
    (∀ e, (Validate repo s now (GetHeader header)).result = .error (.repoError e) →
      APIKeyAuth repo s now header =
        .abortWithStatusJSON 500 { error := "internal server error" }) ∧
    (∀ r, (Validate repo s now (GetHeader header)).result = .ok r →
      APIKeyAuth repo s now header = .nextWith [("api.client", r)]) := by
  refine ⟨?_, ?_, ?_, ?_⟩
  · intro hres
    simp [APIKeyAuth, hres]
  · intro hres
    simp [APIKeyAuth, hres]
  · intro e hres
    simp [APIKeyAuth, hres]
  · intro r hres
    simp [APIKeyAuth, hres, ContextAPIClientKey]

theorem APIKeyAuth_outcome_mapping_witness :
    APIKeyAuth (fun _ => RepoResult.absent) (NewAPIKeyService 0) 0 none =
      .abortWithStatusJSON 401 { error := "missing api key" } ∧
    APIKeyAuth (fun _ => RepoResult.absent) (NewAPIKeyService 0) 0 (some "k") =
      .abortWithStatusJSON 403 { error := "invalid api key" } ∧
    APIKeyAuth (fun _ => RepoResult.failure "boom") (NewAPIKeyService 0) 0 (some "k") =
      .abortWithStatusJSON 500 { error := "internal server error" } ∧
    APIKeyAuth (fun _ => RepoResult.found testKey) (NewAPIKeyService 0) 0 (some "k") =
      .nextWith [("api.client", testKey)] :=
  ⟨(APIKeyAuth_outcome_mapping (fun _ => RepoResult.absent)
      (NewAPIKeyService 0) 0 none).1 (by decide),
   (APIKeyAuth_outcome_mapping (fun _ => RepoResult.absent)
      (NewAPIKeyService 0) 0 (some "k")).2.1 (by decide),
   (APIKeyAuth_outcome_mapping (fun _ => RepoResult.failure "boom")
      (NewAPIKeyService 0) 0 (some "k")).2.2.1 "boom" (by decide),
   (APIKeyAuth_outcome_mapping (fun _ => RepoResult.found testKey)
      (NewAPIKeyService 0) 0 (some "k")).2.2.2 testKey (by decide)⟩

end Cruder
